import Mathlib

/-!
Shallow embedding of `src/v/kafka/server/partition_proxy.cc` (redpanda):
the partition proxy factory `make_partition_proxy` and its helper
`make_with_impl`, together with instrumented variants making exceptions,
registry-call traces and heap allocation explicit.
-/

namespace Kafka

/-- Logical partition identifier `model::ktp`: namespace, topic name and
partition index. Used purely as an opaque lookup key. -/
structure Ktp where
  ns : String
  topic : String
  partition : Int
deriving DecidableEq, Repr

/-- Shared handle to live partition state
(`ss::lw_shared_ptr<cluster::partition>`), modelled opaquely by an identity;
a null handle at the lookup is `Option.none`. -/
abbrev Handle := Nat

/-- Registry collaborator `cluster::partition_manager`, consumed only through
its lookup `get`, which returns a possibly-null shared handle. -/
structure PartitionManager where
  get : Ktp → Option Handle

/-- Concrete adapter variants behind `partition_proxy::impl`. The minimal core
instantiates exactly one: `kafka::replicated_partition`, constructed from one
partition handle. -/
inductive PartitionProxyImpl where
  | replicated_partition (p : Handle)
deriving DecidableEq, Repr

/-- Exclusive-ownership wrapper `kafka::partition_proxy`: holds exactly one
constructed adapter. The `std::unique_ptr<impl>` inside it is never null in
this slice because the only construction path (`make_with_impl`) passes a
freshly built adapter, so the field is total, not optional. -/
structure PartitionProxy where
  impl : PartitionProxyImpl
deriving DecidableEq, Repr

/-- Embeds `make_with_impl<Impl>`: construct the adapter and move it into a
new `partition_proxy` that exclusively owns it. -/
def make_with_impl (impl : PartitionProxyImpl) : PartitionProxy :=
  PartitionProxy.mk impl

/-- Embeds `make_partition_proxy`: run the registry lookup
`cluster_pm.get(ktp)`; when the returned handle tests non-null, construct a
`replicated_partition` adapter around it and wrap it into a proxy, otherwise
return `std::nullopt`. -/
def make_partition_proxy (ktp : Ktp) (cluster_pm : PartitionManager) :
    Option PartitionProxy :=
  match cluster_pm.get ktp with
  | some partition =>
      some (make_with_impl (PartitionProxyImpl.replicated_partition partition))
  | none => none

/-- Faults the registry may raise during lookup (its own error channel,
uninterpreted by the factory). -/
abbrev Fault := String

/-- Registry whose lookup may raise an internal fault instead of answering. -/
structure PartitionManagerE where
  get : Ktp → Except Fault (Option Handle)

/-- Embeds `make_partition_proxy` in the exception monad: the body contains
no handler, so a fault raised by `cluster_pm.get` propagates to the caller
and the rest of the body never runs. -/
def make_partition_proxyE (ktp : Ktp) (cluster_pm : PartitionManagerE) :
    Except Fault (Option PartitionProxy) := do
  let partition ← cluster_pm.get ktp
  match partition with
  | some p =>
      pure (some (make_with_impl (PartitionProxyImpl.replicated_partition p)))
  | none => pure none

/-- Registry lookup instrumented to record the identifier it was invoked
with, exactly as passed. -/
def PartitionManager.getTraced (pm : PartitionManager) (k : Ktp) :
    Option Handle × List Ktp :=
  (pm.get k, [k])

/-- Embeds `make_partition_proxy` with its registry calls instrumented: the
second component accumulates the argument of every lookup the body performs
(the body contains exactly one call, `cluster_pm.get(ktp)`). -/
def make_partition_proxyT (ktp : Ktp) (cluster_pm : PartitionManager) :
    Option PartitionProxy × List Ktp :=
  let r := cluster_pm.getTraced ktp
  (match r.1 with
   | some partition =>
       some (make_with_impl (PartitionProxyImpl.replicated_partition partition))
   | none => none,
   r.2)

/-- Allocation state modelling `std::make_unique`: a bump allocator together
with the set of currently live addresses. -/
structure Heap where
  next : Nat
  live : List Nat
deriving DecidableEq, Repr

/-- Allocate a fresh address. -/
def Heap.alloc (σ : Heap) : Nat × Heap :=
  (σ.next, Heap.mk (σ.next + 1) (σ.next :: σ.live))

/-- Heap wellformedness: every live address was handed out by the bump
allocator earlier. -/
def Heap.wf (σ : Heap) : Prop :=
  ∀ a ∈ σ.live, a < σ.next

/-- Proxy carrying the address of the heap allocation of the adapter it
exclusively owns. -/
structure PartitionProxyH where
  addr : Nat
  impl : PartitionProxyImpl
deriving DecidableEq, Repr

/-- Embeds `make_with_impl` with allocation explicit:
`std::make_unique<Impl>` places a freshly constructed adapter at a fresh
address, which the new proxy then exclusively owns. -/
def make_with_implH (impl : PartitionProxyImpl) (σ : Heap) :
    PartitionProxyH × Heap :=
  let a := σ.alloc
  (PartitionProxyH.mk a.1 impl, a.2)

/-- Embeds `make_partition_proxy` with allocation explicit. -/
def make_partition_proxyH (ktp : Ktp) (cluster_pm : PartitionManager)
    (σ : Heap) : Option PartitionProxyH × Heap :=
  match cluster_pm.get ktp with
  | some partition =>
      let r :=
        make_with_implH (PartitionProxyImpl.replicated_partition partition) σ
      (some r.1, r.2)
  | none => (none, σ)

/-- Destroying a proxy releases the allocation of its owned adapter. -/
def PartitionProxyH.destroy (px : PartitionProxyH) (σ : Heap) : Heap :=
  Heap.mk σ.next (σ.live.erase px.addr)

/-- A proxy is valid in a heap while its owned adapter's allocation is
live there. -/
def PartitionProxyH.validIn (px : PartitionProxyH) (σ : Heap) : Prop :=
  px.addr ∈ σ.live

/-- Example identifier used to instantiate the theorems on concrete data. -/
def exKtp : Ktp := Ktp.mk "ns" "orders" 3

/-- Example registry hosting exactly `exKtp`, with handle identity 7. -/
def exPm : PartitionManager :=
  PartitionManager.mk (fun k => if k = exKtp then some 7 else none)

/-- Example fault-raising registry: lookup of `exKtp` raises. -/
def exPmE : PartitionManagerE :=
  PartitionManagerE.mk
    (fun k => if k = exKtp then Except.error "registry fault" else Except.ok none)

/-- Claim C1: whenever the registry lookup returns a handle for the
identifier, `make_partition_proxy` returns an engaged result containing a
proxy exclusively owning exactly one newly constructed adapter built around
that very handle (the allocation-explicit run places the adapter at a fresh
address). -/
theorem make_partition_proxy_found (ktp : Ktp) (pm : PartitionManager)
    (h : Handle) (σ : Heap) (hget : pm.get ktp = some h) (hwf : σ.wf) :
    make_partition_proxy ktp pm
        = some (make_with_impl (PartitionProxyImpl.replicated_partition h))
      ∧ ∃ px σ1, make_partition_proxyH ktp pm σ = (some px, σ1)
          ∧ px.impl = PartitionProxyImpl.replicated_partition h
          ∧ px.addr ∉ σ.live
          ∧ px.validIn σ1 := by
  refine ⟨by simp [make_partition_proxy, hget], ?_⟩
  refine ⟨PartitionProxyH.mk σ.next (PartitionProxyImpl.replicated_partition h),
    Heap.mk (σ.next + 1) (σ.next :: σ.live), ?_, rfl, ?_, ?_⟩
  · simp [make_partition_proxyH, hget, make_with_implH, Heap.alloc]
  · intro hmem
    exact absurd (hwf _ hmem) (lt_irrefl _)
  · simp [PartitionProxyH.validIn]

/-- Claim C1 witness at the concrete example registry. -/
theorem make_partition_proxy_found_witness :
    make_partition_proxy exKtp exPm
        = some (make_with_impl (PartitionProxyImpl.replicated_partition 7))
      ∧ ∃ px σ1, make_partition_proxyH exKtp exPm (Heap.mk 0 []) = (some px, σ1)
          ∧ px.impl = PartitionProxyImpl.replicated_partition 7
          ∧ px.addr ∉ (Heap.mk 0 ([] : List Nat)).live
          ∧ px.validIn σ1 :=
  make_partition_proxy_found exKtp exPm 7 (Heap.mk 0 []) (by decide)
    (by intro a ha; simp at ha)

/-- Claim C2: for an identifier the registry does not know (lookup reports no
partition), `make_partition_proxy` returns the empty optional — the normal
not-found outcome — and hence never a proxy over invalid state. -/
theorem make_partition_proxy_absent (ktp : Ktp) (pm : PartitionManager)
    (hget : pm.get ktp = none) :
    make_partition_proxy ktp pm = none := by
  simp [make_partition_proxy, hget]

/-- Claim C2 witness: partition 4 of the example topic is absent. -/
theorem make_partition_proxy_absent_witness :
    make_partition_proxy (Ktp.mk "ns" "orders" 4) exPm = none :=
  make_partition_proxy_absent (Ktp.mk "ns" "orders" 4) exPm (by decide)

/-- Claim C3: if the registry lookup raises an internal fault instead of
answering, `make_partition_proxy` propagates that very fault unchanged and
in particular never turns it into the empty (not-found) result. -/
theorem make_partition_proxyE_fault (ktp : Ktp) (pm : PartitionManagerE)
    (f : Fault) (hget : pm.get ktp = Except.error f) :
    make_partition_proxyE ktp pm = Except.error f
      ∧ make_partition_proxyE ktp pm ≠ Except.ok none := by
  constructor
  · simp [make_partition_proxyE, hget, Bind.bind, Except.bind]
  · simp [make_partition_proxyE, hget, Bind.bind, Except.bind]

/-- Claim C3 witness: the example fault-raising registry propagates its
fault through the factory. -/
theorem make_partition_proxyE_fault_witness :
    make_partition_proxyE exKtp exPmE = Except.error "registry fault"
      ∧ make_partition_proxyE exKtp exPmE ≠ Except.ok none :=
  make_partition_proxyE_fault exKtp exPmE "registry fault" (by simp [exPmE])

/-- Claim C4: every proxy that exists is the wrap of exactly one fully
constructed adapter — the type has no empty or default state — and the
factory represents absence only by the empty optional, never by a null or
default proxy. -/
theorem partition_proxy_never_empty :
    (∀ px : PartitionProxy, ∃ i, px = make_with_impl i)
      ∧ (∀ (ktp : Ktp) (pm : PartitionManager),
          make_partition_proxy ktp pm = none
            ∨ ∃ h, make_partition_proxy ktp pm
                = some (make_with_impl
                    (PartitionProxyImpl.replicated_partition h))) := by
  constructor
  · intro px
    exact ⟨px.impl, rfl⟩
  · intro ktp pm
    cases hg : pm.get ktp with
    | none => exact Or.inl (by simp [make_partition_proxy, hg])
    | some h => exact Or.inr ⟨h, by simp [make_partition_proxy, hg]⟩

/-- Claim C5: every successful resolution constructs exactly one adapter,
always the single `replicated_partition` variant over the looked-up handle;
indeed `replicated_partition` is the only adapter variant that exists. -/
theorem make_partition_proxy_single_variant (ktp : Ktp)
    (pm : PartitionManager) (px : PartitionProxy)
    (hres : make_partition_proxy ktp pm = some px) :
    (∃ h, pm.get ktp = some h
        ∧ px = make_with_impl (PartitionProxyImpl.replicated_partition h))
      ∧ ∀ i : PartitionProxyImpl,
          ∃ h, i = PartitionProxyImpl.replicated_partition h := by
  constructor
  · cases hg : pm.get ktp with
    | none => simp [make_partition_proxy, hg] at hres
    | some h =>
        refine ⟨h, rfl, ?_⟩
        simp [make_partition_proxy, hg] at hres
        exact hres.symm
  · intro i
    cases i with
    | replicated_partition h => exact ⟨h, rfl⟩

/-- Claim C5 witness at the concrete example registry. -/
theorem make_partition_proxy_single_variant_witness :
    (∃ h, exPm.get exKtp = some h
        ∧ make_with_impl (PartitionProxyImpl.replicated_partition 7)
            = make_with_impl (PartitionProxyImpl.replicated_partition h))
      ∧ ∀ i : PartitionProxyImpl,
          ∃ h, i = PartitionProxyImpl.replicated_partition h :=
  make_partition_proxy_single_variant exKtp exPm
    (make_with_impl (PartitionProxyImpl.replicated_partition 7)) (by decide)

/-- Claim C6: the factory is stateless and deterministic — the outcome of a
resolution depends on nothing but the identifier and the registry's answer
for it, so two calls seeing the same answer produce the same outcome. -/
theorem make_partition_proxy_deterministic (ktp : Ktp)
    (pm1 pm2 : PartitionManager) (hsame : pm1.get ktp = pm2.get ktp) :
    make_partition_proxy ktp pm1 = make_partition_proxy ktp pm2 := by
  simp [make_partition_proxy, hsame]

/-- Claim C6 witness: two calls against the example registry agree. -/
theorem make_partition_proxy_deterministic_witness :
    make_partition_proxy exKtp exPm = make_partition_proxy exKtp exPm :=
  make_partition_proxy_deterministic exKtp exPm exPm rfl

/-- Claim C7: resolving the same identifier twice while the registry answer
is unchanged yields two proxies whose owned adapters live at distinct fresh
addresses, so destroying either proxy leaves the other one valid. -/
theorem make_partition_proxy_twice_independent (ktp : Ktp)
    (pm : PartitionManager) (h : Handle) (σ : Heap)
    (hget : pm.get ktp = some h) :
    ∃ px1 σ1 px2 σ2,
      make_partition_proxyH ktp pm σ = (some px1, σ1)
        ∧ make_partition_proxyH ktp pm σ1 = (some px2, σ2)
        ∧ px1.addr ≠ px2.addr
        ∧ px1.impl = PartitionProxyImpl.replicated_partition h
        ∧ px2.impl = PartitionProxyImpl.replicated_partition h
        ∧ px1.validIn (px2.destroy σ2)
        ∧ px2.validIn (px1.destroy σ2) := by
  refine ⟨PartitionProxyH.mk σ.next (PartitionProxyImpl.replicated_partition h),
    Heap.mk (σ.next + 1) (σ.next :: σ.live),
    PartitionProxyH.mk (σ.next + 1) (PartitionProxyImpl.replicated_partition h),
    Heap.mk (σ.next + 2) ((σ.next + 1) :: σ.next :: σ.live),
    ?_, ?_, by simp, rfl, rfl, ?_, ?_⟩
  · simp [make_partition_proxyH, hget, make_with_implH, Heap.alloc]
  · simp [make_partition_proxyH, hget, make_with_implH, Heap.alloc]
  · show σ.next ∈ List.erase ((σ.next + 1) :: σ.next :: σ.live) (σ.next + 1)
    rw [List.erase_cons_head]
    exact List.mem_cons_self _ _
  · show σ.next + 1 ∈ List.erase ((σ.next + 1) :: σ.next :: σ.live) σ.next
    rw [List.mem_erase_of_ne (by simp)]
    exact List.mem_cons_self _ _

/-- Claim C7 witness at the concrete example registry and an empty heap. -/
theorem make_partition_proxy_twice_independent_witness :
    ∃ px1 σ1 px2 σ2,
      make_partition_proxyH exKtp exPm (Heap.mk 0 []) = (some px1, σ1)
        ∧ make_partition_proxyH exKtp exPm σ1 = (some px2, σ2)
        ∧ px1.addr ≠ px2.addr
        ∧ px1.impl = PartitionProxyImpl.replicated_partition 7
        ∧ px2.impl = PartitionProxyImpl.replicated_partition 7
        ∧ px1.validIn (px2.destroy σ2)
        ∧ px2.validIn (px1.destroy σ2) :=
  make_partition_proxy_twice_independent exKtp exPm 7 (Heap.mk 0 [])
    (by decide)

/-- Claim C8: the factory performs no validation of the identifier and runs
exactly one registry lookup, whose argument is the identifier exactly as
received; the instrumented run also yields the same result as the plain
factory. -/
theorem make_partition_proxy_forwards_unchanged (ktp : Ktp)
    (pm : PartitionManager) :
    (make_partition_proxyT ktp pm).2 = [ktp]
      ∧ (make_partition_proxyT ktp pm).1 = make_partition_proxy ktp pm := by
  constructor
  · rfl
  · cases hg : pm.get ktp <;>
      simp [make_partition_proxyT, make_partition_proxy,
        PartitionManager.getTraced, hg]

/-- Claim C9: resolution terminates at once for every registry reply: the
factory is a total straight-line function that ends in either a proxy or the
empty result, and in the exception-aware run in either a propagated fault or
such an answer. -/
theorem make_partition_proxy_total (ktp : Ktp) (pm : PartitionManager)
    (pmE : PartitionManagerE) :
    ((∃ px, make_partition_proxy ktp pm = some px)
        ∨ make_partition_proxy ktp pm = none)
      ∧ ((∃ f, make_partition_proxyE ktp pmE = Except.error f)
          ∨ ∃ r, make_partition_proxyE ktp pmE = Except.ok r) := by
  constructor
  · cases hg : pm.get ktp with
    | none => exact Or.inr (by simp [make_partition_proxy, hg])
    | some h =>
        exact Or.inl
          ⟨make_with_impl (PartitionProxyImpl.replicated_partition h),
            by simp [make_partition_proxy, hg]⟩
  · cases hg : pmE.get ktp with
    | error f =>
        exact Or.inl ⟨f, by simp [make_partition_proxyE, hg, Bind.bind,
          Except.bind]⟩
    | ok o =>
        cases o with
        | none =>
            exact Or.inr ⟨none, by simp [make_partition_proxyE, hg, Bind.bind,
              Except.bind, pure, Except.pure]⟩
        | some h =>
            exact Or.inr
              ⟨some (make_with_impl
                  (PartitionProxyImpl.replicated_partition h)),
                by simp [make_partition_proxyE, hg, Bind.bind, Except.bind,
                  pure, Except.pure]⟩

/-- Claim C10: the adapter-construction branch runs exactly when the handle
returned by the lookup tests non-null, so the result is engaged iff the
handle was non-null, and the result is precisely the mapping of the
looked-up handle into a proxy over a `replicated_partition` adapter — no
adapter is ever constructed over a null handle. -/
theorem make_partition_proxy_null_handle (ktp : Ktp)
    (pm : PartitionManager) :
    (make_partition_proxy ktp pm).isSome = (pm.get ktp).isSome
      ∧ make_partition_proxy ktp pm
          = Option.map
              (fun h => make_with_impl
                (PartitionProxyImpl.replicated_partition h))
              (pm.get ktp) := by
  cases hg : pm.get ktp <;> simp [make_partition_proxy, hg]

end Kafka
